import Mathlib

/-!
Shallow embedding of the invoice-retriever batch job (src/app.py).

The program scans a mail inbox for PDF invoice attachments, downloads them to
a scratch directory `invoices/`, uploads them to a cloud-storage folder, and
removes the local copy.  All external services (mail search, message fetch,
attachment fetch, base64 decoding of the transport encoding, storage upload)
are modelled as oracles in an `Env`; each oracle returns `Except String α`
where the `error` case stands for a raised exception.  The observable world is
a `State`: the scratch files, the log, and append-only histories of fetches,
writes, upload attempts and successful uploads.  Every Python function is
embedded as a function returning `State × Option String`, where the second
component is the exception escaping the function (`none` when it returns
normally); a `try/except` block is a `match` on that component that turns the
exception into an error-log entry.
-/

namespace InvoiceRetriever

/-- A message part's `body` descriptor (`part['body']`); `attachmentId` is
`none` when the key is absent. -/
structure PartBody where
  attachmentId : Option String
deriving Repr, DecidableEq

/-- An attachment part descriptor (`part`); `filename`/`body` are `none` when
the corresponding dict keys are absent. -/
structure Part where
  filename : Option String
  body : Option PartBody
deriving Repr, DecidableEq

/-- A message payload (`message['payload']`); `parts` is `none` when the
`parts` key is absent. -/
structure Payload where
  parts : Option (List Part)
deriving Repr, DecidableEq

/-- A fetched message (`message`); `payload` is `none` when the key is
absent. -/
structure Message where
  payload : Option Payload
deriving Repr, DecidableEq

/-- The response of an attachment fetch; `data` holds the base64url-encoded
bytes, `none` when the key is absent. -/
structure Attachment where
  data : Option String
deriving Repr, DecidableEq

/-- The storage service's response to a file creation; `id` is the new file's
identifier (`file.get('id')`). -/
structure DriveFile where
  id : Option String
deriving Repr, DecidableEq

/-- One entry of the message list response (`results['messages']`). -/
structure MsgRef where
  id : String
deriving Repr, DecidableEq

/-- The message list response (`results`); `messages` is `none` when the key
is absent (handled by `results.get('messages', [])`). -/
structure ListResp where
  messages : Option (List MsgRef)
deriving Repr, DecidableEq

/-- The observable world state: scratch-directory files (path ↦ contents),
the log (`true` = error entry, `false` = info entry), the successful uploads,
and append-only histories of attachment fetches issued, file writes performed
and upload file reads attempted. -/
structure State where
  files : List (String × String)
  log : List (Bool × String)
  uploaded : List (String × Option String)
  fetched : List (String × String)
  writes : List (String × String)
  uploadReads : List String
  dirs : List String
deriving Repr, DecidableEq

/-- The empty initial world. -/
def State.init : State := ⟨[], [], [], [], [], [], []⟩

/-- `logger.error(m)`. -/
def State.logError (s : State) (m : String) : State :=
  { s with log := s.log ++ [(true, m)] }

/-- `logger.info(m)`. -/
def State.logInfo (s : State) (m : String) : State :=
  { s with log := s.log ++ [(false, m)] }

/-- `open(path, 'wb').write(data)`: creates or overwrites the file at `path`
and records the write in the history. -/
def State.writeFile (s : State) (path data : String) : State :=
  { s with
    files := s.files.filter (fun f => f.1 != path) ++ [(path, data)]
    writes := s.writes ++ [(path, data)] }

/-- Reading the file at `path` (`none` when it does not exist). -/
def State.readFile (s : State) (path : String) : Option String :=
  (s.files.find? (fun f => f.1 == path)).map (fun f => f.2)

/-- `os.remove(path)`: deletes the file, raising `FileNotFoundError` when it
does not exist. -/
def State.removeFile (s : State) (path : String) : State × Option String :=
  if s.files.any (fun f => f.1 == path) then
    ({ s with files := s.files.filter (fun f => f.1 != path) }, none)
  else
    (s, some "FileNotFoundError")

/-- `os.makedirs(d, exist_ok=True)`. -/
def State.makedirs (s : State) (d : String) : State :=
  if s.dirs.contains d then s else { s with dirs := s.dirs ++ [d] }

/-- The external services: each field models one opaque API call of the
source, with `Except.error` standing for a raised exception. `gmailService`
and `driveService` model the two `get_google_service` calls, `listMessages`
takes the search query, `getAttachment` takes the message id and attachment
id, `b64decode` models `base64.urlsafe_b64decode`, and `driveCreate` takes
the configured folder id (`DRIVE_FOLDER_ID`), the file name and the file
contents read from the local path. -/
structure Env where
  gmailService : Except String Unit
  driveService : Except String Unit
  driveFolderId : Option String
  listMessages : String → Except String ListResp
  getMessage : String → Except String Message
  getAttachment : String → String → Except String Attachment
  b64decode : String → Except String String
  driveCreate : Option String → String → String → Except String DriveFile

/-- Python `str.replace('\n', ' ')`. -/
def pyReplaceNlSpace (s : String) : String :=
  String.mk (s.toList.map (fun c => if c = '\n' then ' ' else c))

/-- Python whitespace test used by `str.strip()` (the characters occurring in
the query literal). -/
def pySpace (c : Char) : Bool :=
  c = ' ' || c = '\n' || c = '\t' || c = '\r'

/-- Python `str.strip()`. -/
def pyStrip (s : String) : String :=
  String.mk (((s.toList.dropWhile pySpace).reverse.dropWhile pySpace).reverse)

/-- Python `str.lower()` (ASCII-relevant part). -/
def pyLower (s : String) : String :=
  String.mk (s.toList.map Char.toLower)

/-- Python `str.endswith(suffix)`. -/
def pyEndsWith (s suffix : String) : Bool :=
  s.toList.reverse.take suffix.length == suffix.toList.reverse

/-- The raw triple-quoted query literal of `process_emails`, byte for byte. -/
def rawQuery : String :=
  "\n            newer:1d\n            AND\n            (from:billing@render.com OR \n             from:support@netlify.com OR\n             from:billing@netlify.com OR\n             from:payments-noreply@google.com OR\n             from:billing@webflow.com OR\n             from:billing@box.com OR\n             from:billing@typeform.com OR\n             from:no-reply@business.amazon.com OR\n             from:*@anthemwelderssupply.com)\n            AND \n            (subject:invoice OR subject:receipt OR subject:bill OR subject:payment)\n            AND \n            has:attachment\n        "

/-- The search query string constructed by `process_emails`:
`rawQuery.replace('\n', ' ').strip()`. -/
def query : String := pyStrip (pyReplaceNlSpace rawQuery)

/-- Splits a character list on spaces, dropping empty tokens (the word view
of a string). -/
def wordsAux : List Char → List Char → List String
  | [], acc => if acc.isEmpty then [] else [String.mk acc.reverse]
  | c :: cs, acc =>
    if c = ' ' then
      if acc.isEmpty then wordsAux cs []
      else String.mk acc.reverse :: wordsAux cs []
    else wordsAux cs (c :: acc)

/-- The whitespace-separated tokens of a string. -/
def wordsOf (s : String) : List String := wordsAux s.toList []

/-- The guard of the attachment loop:
`part.get('filename') and part['filename'].lower().endswith('.pdf')`
(a missing or empty filename is falsy). -/
def isPdfName (part : Part) : Bool :=
  match part.filename with
  | none => false
  | some f => f != "" && pyEndsWith (pyLower f) ".pdf"

/-- The attachment id reachable from a part (`part['body']['attachmentId']`
when both keys exist). -/
def attachmentIdOf (part : Part) : Option String :=
  match part.body with
  | none => none
  | some b => b.attachmentId

/-- `upload_to_drive(drive_service, filename)`: builds the metadata with the
configured folder id, opens the local file `invoices/{filename}` for the
media upload, creates the remote file and logs the new id; any exception in
the body is caught and logged, so the function always returns normally. -/
def upload_to_drive (env : Env) (s : State) (filename : String) : State × Option String :=
  let path := "invoices/" ++ filename
  let s := { s with uploadReads := s.uploadReads ++ [path] }
  match s.readFile path with
  | none => (s.logError "Error uploading to Drive: FileNotFoundError", none)
  | some content =>
    match env.driveCreate env.driveFolderId filename content with
    | .error e => (s.logError ("Error uploading to Drive: " ++ e), none)
    | .ok file =>
      let s := { s with uploaded := s.uploaded ++ [(filename, file.id)] }
      (s.logInfo ("File " ++ filename ++ " uploaded successfully, ID: " ++ file.id.getD "None"), none)

/-- The `try` body of `process_attachment`: when the part carries an
attachment id, fetch the blob, decode it, write it to
`invoices/{filename}`, upload, then remove the local file.  The second
component is the exception escaping the body. -/
def processAttachmentBody (env : Env) (s : State) (msgId : String) (part : Part) :
    State × Option String :=
  match part.body with
  | none => (s, none)
  | some b =>
    match b.attachmentId with
    | none => (s, none)
    | some attId =>
      let s := { s with fetched := s.fetched ++ [(msgId, attId)] }
      match env.getAttachment msgId attId with
      | .error e => (s, some e)
      | .ok attachment =>
        match attachment.data with
        | none => (s, some "KeyError: data")
        | some enc =>
          match env.b64decode enc with
          | .error e => (s, some e)
          | .ok file_data =>
            match part.filename with
            | none => (s, some "KeyError: filename")
            | some filename =>
              let s := s.writeFile ("invoices/" ++ filename) file_data
              match upload_to_drive env s filename with
              | (s, some e) => (s, some e)
              | (s, none) => s.removeFile ("invoices/" ++ filename)

/-- `process_attachment(gmail_service, drive_service, msg_id, part)`: the
body above wrapped in `try/except`, logging any exception. -/
def process_attachment (env : Env) (s : State) (msgId : String) (part : Part) :
    State × Option String :=
  match processAttachmentBody env s msgId part with
  | (s, none) => (s, none)
  | (s, some e) => (s.logError ("Error processing attachment: " ++ e), none)

/-- The `for part in message['payload']['parts']` loop: each part passing the
PDF-name guard is handed to `process_attachment`; an exception escaping an
iteration aborts the loop (propagating to the enclosing `try`). -/
def processParts (env : Env) (msgId : String) : List Part → State → State × Option String
  | [], s => (s, none)
  | part :: rest, s =>
    if isPdfName part then
      match process_attachment env s msgId part with
      | (s, some e) => (s, some e)
      | (s, none) => processParts env msgId rest s
    else
      processParts env msgId rest s

/-- The `try` body of `process_single_email`: fetch the message and, when the
payload has parts, run the attachment loop. -/
def processSingleEmailBody (env : Env) (s : State) (msgId : String) : State × Option String :=
  match env.getMessage msgId with
  | .error e => (s, some e)
  | .ok message =>
    match message.payload with
    | none => (s, none)
    | some payload =>
      match payload.parts with
      | none => (s, none)
      | some parts => processParts env msgId parts s

/-- `process_single_email(gmail_service, drive_service, msg_id)`: body wrapped
in `try/except`, logging any exception with the message id. -/
def process_single_email (env : Env) (s : State) (msgId : String) : State × Option String :=
  match processSingleEmailBody env s msgId with
  | (s, none) => (s, none)
  | (s, some e) => (s.logError ("Error processing message " ++ msgId ++ ": " ++ e), none)

/-- The `for message in messages` loop of `process_emails`: an exception
escaping an iteration aborts the loop. -/
def processMessages (env : Env) : List MsgRef → State → State × Option String
  | [], s => (s, none)
  | m :: rest, s =>
    match process_single_email env s m.id with
    | (s, some e) => (s, some e)
    | (s, none) => processMessages env rest s

/-- The `try` body of `process_emails`: authenticate both services, run the
search query, and process every returned message. -/
def processEmailsBody (env : Env) (s : State) : State × Option String :=
  match env.gmailService with
  | .error e => (s, some e)
  | .ok _ =>
    match env.driveService with
    | .error e => (s, some e)
    | .ok _ =>
      match env.listMessages query with
      | .error e => (s, some e)
      | .ok results => processMessages env (results.messages.getD []) s

/-- `process_emails()`: body wrapped in `try/except`, logging any
exception. -/
def process_emails (env : Env) (s : State) : State × Option String :=
  match processEmailsBody env s with
  | (s, none) => (s, none)
  | (s, some e) => (s.logError ("Error processing emails: " ++ e), none)

/-- `main()`: the job body run by the scheduler — log start, ensure the
scratch directory exists, process emails, log completion. -/
def main (env : Env) (s : State) : State × Option String :=
  let s := s.logInfo "Starting invoice processing job"
  let s := s.makedirs "invoices"
  match process_emails env s with
  | (s, some e) => (s, some e)
  | (s, none) => (s.logInfo "Completed invoice processing job", none)

/-! ## Helper lemmas -/

/-- `upload_to_drive` returns normally in every branch (its whole body is a
`try/except`), leaves the scratch files, fetch history and write history
untouched, and records exactly one upload read of `invoices/{fn}`. -/
theorem upload_to_drive_effects (env : Env) (s : State) (fn : String) :
    (upload_to_drive env s fn).2 = none ∧
    (upload_to_drive env s fn).1.files = s.files ∧
    (upload_to_drive env s fn).1.fetched = s.fetched ∧
    (upload_to_drive env s fn).1.writes = s.writes ∧
    (upload_to_drive env s fn).1.uploadReads = s.uploadReads ++ ["invoices/" ++ fn] := by
  unfold upload_to_drive
  cases hr : State.readFile { s with uploadReads := s.uploadReads ++ ["invoices/" ++ fn] } ("invoices/" ++ fn) with
  | none => simp [hr, State.logError]
  | some c =>
    cases hc : env.driveCreate env.driveFolderId fn c with
    | error e => simp [hr, hc, State.logError]
    | ok f => simp [hr, hc, State.logInfo]

/-- `os.remove` only touches the scratch files. -/
theorem State.removeFile_effects (s : State) (path : String) :
    ((s.removeFile path).1).fetched = s.fetched ∧
    ((s.removeFile path).1).writes = s.writes ∧
    ((s.removeFile path).1).uploadReads = s.uploadReads ∧
    ((s.removeFile path).1).log = s.log := by
  unfold State.removeFile
  split <;> simp

/-- `process_attachment` never lets an exception escape: its whole body is
wrapped in `try/except`. -/
theorem process_attachment_no_raise (env : Env) (s : State) (msgId : String) (part : Part) :
    (process_attachment env s msgId part).2 = none := by
  unfold process_attachment
  cases h : processAttachmentBody env s msgId part with
  | mk s' e => cases e <;> rfl

/-- `process_single_email` never lets an exception escape. -/
theorem process_single_email_no_raise (env : Env) (s : State) (msgId : String) :
    (process_single_email env s msgId).2 = none := by
  unfold process_single_email
  cases h : processSingleEmailBody env s msgId with
  | mk s' e => cases e <;> rfl

/-- `process_emails` never lets an exception escape. -/
theorem process_emails_no_raise (env : Env) (s : State) :
    (process_emails env s).2 = none := by
  unfold process_emails
  cases h : processEmailsBody env s with
  | mk s' e => cases e <;> rfl

theorem processAttachmentBody_files_empty (env : Env) (s : State) (msgId : String) (part : Part)
    (h : s.files = []) : (processAttachmentBody env s msgId part).1.files = [] := by
  obtain ⟨pfn, pbody⟩ := part
  unfold processAttachmentBody
  cases pbody with
  | none => simpa using h
  | some b =>
    obtain ⟨battId⟩ := b
    cases battId with
    | none => simpa using h
    | some attId =>
      simp only
      cases hg : env.getAttachment msgId attId with
      | error e => simp only [hg]; simpa using h
      | ok attachment =>
        simp only [hg]
        obtain ⟨adata⟩ := attachment
        cases adata with
        | none => simpa using h
        | some enc =>
          simp only
          cases hdec : env.b64decode enc with
          | error e => simp only [hdec]; simpa using h
          | ok fd =>
            simp only [hdec]
            cases pfn with
            | none => simpa using h
            | some fn =>
              simp only
              obtain hu2 := upload_to_drive_effects env
                (({ s with fetched := s.fetched ++ [(msgId, attId)] } : State).writeFile ("invoices/" ++ fn) fd) fn
              cases hu : upload_to_drive env
                  (({ s with fetched := s.fetched ++ [(msgId, attId)] } : State).writeFile ("invoices/" ++ fn) fd) fn with
              | mk s3 e3 =>
                rw [hu] at hu2
                obtain ⟨hnone, hfiles, -, -, -⟩ := hu2
                cases e3 with
                | some e => exact absurd hnone (by simp)
                | none =>
                  simp only [hu]
                  have h3 : s3.files = [("invoices/" ++ fn, fd)] := by
                    simpa [State.writeFile, h] using hfiles
                  simp [State.removeFile, h3]

theorem processAttachmentBody_fetched (env : Env) (s : State) (msgId : String) (part : Part) :
    (processAttachmentBody env s msgId part).1.fetched =
      s.fetched ++ (match attachmentIdOf part with
                    | some aid => [(msgId, aid)]
                    | none => []) := by
  obtain ⟨pfn, pbody⟩ := part
  unfold processAttachmentBody attachmentIdOf
  cases pbody with
  | none => simp
  | some b =>
    obtain ⟨battId⟩ := b
    cases battId with
    | none => simp
    | some attId =>
      simp only
      cases hg : env.getAttachment msgId attId with
      | error e => simp [hg]
      | ok attachment =>
        simp only [hg]
        obtain ⟨adata⟩ := attachment
        cases adata with
        | none => simp
        | some enc =>
          simp only
          cases hdec : env.b64decode enc with
          | error e => simp [hdec]
          | ok fd =>
            simp only [hdec]
            cases pfn with
            | none => simp
            | some fn =>
              simp only
              obtain hu2 := upload_to_drive_effects env
                (({ s with fetched := s.fetched ++ [(msgId, attId)] } : State).writeFile ("invoices/" ++ fn) fd) fn
              cases hu : upload_to_drive env
                  (({ s with fetched := s.fetched ++ [(msgId, attId)] } : State).writeFile ("invoices/" ++ fn) fd) fn with
              | mk s3 e3 =>
                rw [hu] at hu2
                obtain ⟨hnone, -, hfetch, -, -⟩ := hu2
                cases e3 with
                | some e => exact absurd hnone (by simp)
                | none =>
                  simp only [hu]
                  obtain ⟨hrf, -, -, -⟩ := State.removeFile_effects s3 ("invoices/" ++ fn)
                  rw [hrf, hfetch]
                  simp [State.writeFile]

theorem processAttachmentBody_writes_reads (env : Env) (s : State) (msgId : String) (part : Part)
    (b : PartBody) (attId : String) (att : Attachment) (enc fd fn : String)
    (hb : part.body = some b) (ha : b.attachmentId = some attId)
    (hg : env.getAttachment msgId attId = Except.ok att) (hd : att.data = some enc)
    (hdec : env.b64decode enc = Except.ok fd) (hfn : part.filename = some fn) :
    (processAttachmentBody env s msgId part).1.writes = s.writes ++ [("invoices/" ++ fn, fd)] ∧
    (processAttachmentBody env s msgId part).1.uploadReads = s.uploadReads ++ ["invoices/" ++ fn] := by
  obtain ⟨pfn, pbody⟩ := part
  simp only at hb hfn
  subst hb hfn
  obtain ⟨battId⟩ := b
  simp only at ha
  subst ha
  obtain ⟨adata⟩ := att
  simp only at hd
  subst hd
  unfold processAttachmentBody
  simp only [hg, hdec]
  obtain hu2 := upload_to_drive_effects env
    (({ s with fetched := s.fetched ++ [(msgId, attId)] } : State).writeFile ("invoices/" ++ fn) fd) fn
  cases hu : upload_to_drive env
      (({ s with fetched := s.fetched ++ [(msgId, attId)] } : State).writeFile ("invoices/" ++ fn) fd) fn with
  | mk s3 e3 =>
    rw [hu] at hu2
    obtain ⟨hnone, -, -, hw, hur⟩ := hu2
    cases e3 with
    | some e => exact absurd hnone (by simp)
    | none =>
      simp only [hu]
      obtain ⟨-, hrw, hrur, -⟩ := State.removeFile_effects s3 ("invoices/" ++ fn)
      rw [hrw, hrur, hw, hur]
      simp [State.writeFile]

/-- The `try/except` wrapper of `process_attachment` preserves the
files-empty invariant of its body: the error handler only logs. -/
theorem process_attachment_files_empty (env : Env) (s : State) (msgId : String) (part : Part)
    (h : s.files = []) : (process_attachment env s msgId part).1.files = [] := by
  unfold process_attachment
  have hb := processAttachmentBody_files_empty env s msgId part h
  cases hpb : processAttachmentBody env s msgId part with
  | mk s2 e =>
    rw [hpb] at hb
    cases e <;> simpa [State.logError] using hb

/-- The attachment-fetch history after `process_attachment`: exactly one
fetch is recorded when the part carries an attachment id, none otherwise. -/
theorem process_attachment_fetched (env : Env) (s : State) (msgId : String) (part : Part) :
    (process_attachment env s msgId part).1.fetched =
      s.fetched ++ (match attachmentIdOf part with
                    | some aid => [(msgId, aid)]
                    | none => []) := by
  unfold process_attachment
  have hb := processAttachmentBody_fetched env s msgId part
  cases hpb : processAttachmentBody env s msgId part with
  | mk s2 e =>
    rw [hpb] at hb
    cases e <;> simpa [State.logError] using hb

/-- The attachment loop never raises and visits every part in order: it is
the fold of `process_attachment` over the parts passing the PDF-name
guard. -/
theorem processParts_eq_foldl (env : Env) (msgId : String) (parts : List Part) : ∀ s : State,
    processParts env msgId parts s =
      (parts.foldl
        (fun acc part =>
          if isPdfName part then (process_attachment env acc msgId part).1 else acc) s,
       none) := by
  induction parts with
  | nil => intro s; simp [processParts]
  | cons part rest ih =>
    intro s
    unfold processParts
    by_cases hpdf : isPdfName part
    · simp only [hpdf, if_true]
      cases hp : process_attachment env s msgId part with
      | mk s2 e =>
        have hnr := process_attachment_no_raise env s msgId part
        rw [hp] at hnr
        simp only at hnr
        subst hnr
        simp [ih, hp, hpdf]
    · simp [hpdf, ih]

/-- The message loop never raises and visits every message in order: it is
the fold of `process_single_email` over the message references. -/
theorem processMessages_eq_foldl (env : Env) (refs : List MsgRef) : ∀ s : State,
    processMessages env refs s =
      (refs.foldl (fun acc m => (process_single_email env acc m.id).1) s, none) := by
  induction refs with
  | nil => intro s; simp [processMessages]
  | cons m rest ih =>
    intro s
    unfold processMessages
    cases hp : process_single_email env s m.id with
    | mk s2 e =>
      have hnr := process_single_email_no_raise env s m.id
      rw [hp] at hnr
      simp only at hnr
      subst hnr
      simp [ih, hp]

/-- The attachment parts `process_single_email` iterates over for a given
message id (empty when the fetch fails, the payload is missing or the
payload has no parts). -/
def messageParts (env : Env) (msgId : String) : List Part :=
  match env.getMessage msgId with
  | .error _ => []
  | .ok m =>
    match m.payload with
    | none => []
    | some p => p.parts.getD []

/-- Every fetch recorded by the attachment loop comes from a part passing
the PDF-name guard. -/
theorem processParts_fetched_mem (env : Env) (msgId : String) (parts : List Part) :
    ∀ (s : State) (e : String × String),
    e ∈ (processParts env msgId parts s).1.fetched →
    e ∈ s.fetched ∨
      ∃ part, part ∈ parts ∧ isPdfName part = true ∧
        attachmentIdOf part = some e.2 ∧ e.1 = msgId := by
  induction parts with
  | nil => intro s e h; left; simpa [processParts] using h
  | cons part rest ih =>
    intro s e h
    unfold processParts at h
    by_cases hpdf : isPdfName part
    · simp only [hpdf, if_true] at h
      cases hp : process_attachment env s msgId part with
      | mk s2 e2 =>
        have hnr := process_attachment_no_raise env s msgId part
        rw [hp] at hnr
        simp only at hnr
        subst hnr
        rw [hp] at h
        simp only at h
        rcases ih s2 e h with h2 | ⟨p, hmem, hpdf2, haid, hm⟩
        · have hf := process_attachment_fetched env s msgId part
          rw [hp] at hf
          simp only at hf
          rw [hf] at h2
          rcases List.mem_append.1 h2 with h3 | h3
          · left; exact h3
          · right
            refine ⟨part, List.mem_cons_self part rest, hpdf, ?_, ?_⟩
            · cases haid : attachmentIdOf part with
              | none => rw [haid] at h3; simp at h3
              | some aid =>
                rw [haid] at h3
                simp only [List.mem_singleton] at h3
                rw [h3]
            · cases haid : attachmentIdOf part with
              | none => rw [haid] at h3; simp at h3
              | some aid =>
                rw [haid] at h3
                simp only [List.mem_singleton] at h3
                rw [h3]
        · right; exact ⟨p, List.mem_cons_of_mem part hmem, hpdf2, haid, hm⟩
    · simp only [hpdf, if_false, Bool.false_eq_true] at h
      rcases ih s e h with h2 | ⟨p, hmem, hpdf2, haid, hm⟩
      · left; exact h2
      · right; exact ⟨p, List.mem_cons_of_mem part hmem, hpdf2, haid, hm⟩

/-! ## Concrete environments used in closed theorems and witnesses -/

/-- A benign environment: both services authenticate, the search returns no
messages, any attachment fetch and upload succeeds. -/
def stubEnv : Env where
  gmailService := .ok ()
  driveService := .ok ()
  driveFolderId := some "FOLDER"
  listMessages := fun _ => .ok ⟨some []⟩
  getMessage := fun _ => .ok ⟨none⟩
  getAttachment := fun _ aid => .ok ⟨some ("enc-" ++ aid)⟩
  b64decode := fun enc => .ok ("dec-" ++ enc)
  driveCreate := fun _ fn _ => .ok ⟨some ("id-" ++ fn)⟩

/-- Three messages, one PDF attachment each; the attachment fetch of message
`m2` raises. -/
def isolationEnv : Env where
  gmailService := .ok ()
  driveService := .ok ()
  driveFolderId := some "FOLDER"
  listMessages := fun _ => .ok ⟨some [⟨"m1"⟩, ⟨"m2"⟩, ⟨"m3"⟩]⟩
  getMessage := fun mid =>
    .ok ⟨some ⟨some [⟨some (mid ++ ".pdf"), some ⟨some ("att-" ++ mid)⟩⟩]⟩⟩
  getAttachment := fun _ aid =>
    if aid == "att-m2" then .error "boom" else .ok ⟨some ("enc-" ++ aid)⟩
  b64decode := fun enc => .ok ("dec-" ++ enc)
  driveCreate := fun _ fn _ => .ok ⟨some ("id-" ++ fn)⟩

/-- Like `stubEnv`, but every upload fails. -/
def failUploadEnv : Env :=
  { stubEnv with driveCreate := fun _ _ _ => .error "quota exceeded" }

/-- Like `stubEnv`, but the mail-service authentication fails. -/
def authFailEnv : Env :=
  { stubEnv with gmailService := .error "invalid credentials" }

/-- Like `stubEnv`, but message `m1` has one PDF attachment part. -/
def pdfEnv : Env :=
  { stubEnv with getMessage := fun _ => .ok ⟨some ⟨some [⟨some "inv.pdf", some ⟨some "A1"⟩⟩]⟩⟩ }

/-- A PDF-named part carrying attachment id `A1`. -/
def pdfPart : Part := ⟨some "inv.pdf", some ⟨some "A1"⟩⟩

/-- A PDF-named part whose filename contains a path traversal. -/
def traversalPart : Part := ⟨some "../x.pdf", some ⟨some "A9"⟩⟩

/-- A PDF-named part whose body carries no attachment id. -/
def noIdPart : Part := ⟨some "inv.pdf", some ⟨none⟩⟩

/-- Any fetch recorded during `process_single_email` that was not already in
the history comes from a PDF-named part of the fetched message. -/
theorem process_single_email_fetched_mem (env : Env) (s : State) (msgId : String)
    (e : String × String) (h : e ∈ (process_single_email env s msgId).1.fetched) :
    e ∈ s.fetched ∨
      (e.1 = msgId ∧ ∃ part ∈ messageParts env msgId,
        isPdfName part = true ∧ attachmentIdOf part = some e.2) := by
  unfold process_single_email processSingleEmailBody at h
  cases hg : env.getMessage msgId with
  | error err =>
    simp only [hg, State.logError] at h
    left; exact h
  | ok m =>
    cases hpay : m.payload with
    | none =>
      simp only [hg, hpay] at h
      left; exact h
    | some p =>
      cases hparts : p.parts with
      | none =>
        simp only [hg, hpay, hparts] at h
        left; exact h
      | some parts =>
        simp only [hg, hpay, hparts] at h
        rw [processParts_eq_foldl env msgId parts s] at h
        simp only at h
        have h2 : e ∈ (processParts env msgId parts s).1.fetched := by
          rw [processParts_eq_foldl env msgId parts s]; exact h
        rcases processParts_fetched_mem env msgId parts s e h2 with h3 | ⟨part, hmem, hpdf, haid, hm⟩
        · left; exact h3
        · right
          have hmp : messageParts env msgId = parts := by
            simp [messageParts, hg, hpay, hparts]
          exact ⟨hm, part, hmp ▸ hmem, hpdf, haid⟩

/-! ## Claim theorems -/

/-- C1: For every attachment whose bytes are written to the scratch file,
the scratch file is removed before `process_attachment` returns regardless
of whether the upload succeeds or fails: starting from an empty scratch
directory, both a successful and a failing upload leave zero files in the
scratch directory. -/
theorem cleanup_unconditional (env : Env) (s : State) (msgId : String) (part : Part)
    (h : s.files = []) : (process_attachment env s msgId part).1.files = [] :=
  process_attachment_files_empty env s msgId part h

/-- Witness for C1 at a concrete failing-upload input. -/
theorem cleanup_unconditional_witness :
    State.init.files = [] ∧
    (process_attachment failUploadEnv State.init "m1" pdfPart).1.files = [] :=
  ⟨rfl, cleanup_unconditional failUploadEnv State.init "m1" pdfPart rfl⟩

/-- C2: An error raised while fetching or processing one message or one of
its attachments is caught at the smallest enclosing scope and does not abort
the other items: both loops are total folds over all their items, and in the
concrete three-message run where message `m2`'s attachment fetch throws,
messages `m1` and `m3` are still fully processed and uploaded while the
error is logged per-attachment. -/
theorem failure_isolation_three_messages :
    (∀ (env : Env) (msgId : String) (parts : List Part) (s : State),
      processParts env msgId parts s =
        (parts.foldl
          (fun acc part =>
            if isPdfName part then (process_attachment env acc msgId part).1 else acc) s,
         none)) ∧
    (∀ (env : Env) (refs : List MsgRef) (s : State),
      processMessages env refs s =
        (refs.foldl (fun acc m => (process_single_email env acc m.id).1) s, none)) ∧
    (process_emails isolationEnv State.init).1.uploaded =
      [("m1.pdf", some "id-m1.pdf"), ("m3.pdf", some "id-m3.pdf")] ∧
    (process_emails isolationEnv State.init).1.log =
      [(false, "File m1.pdf uploaded successfully, ID: id-m1.pdf"),
       (true, "Error processing attachment: boom"),
       (false, "File m3.pdf uploaded successfully, ID: id-m3.pdf")] :=
  ⟨fun env msgId parts s => processParts_eq_foldl env msgId parts s,
   fun env refs s => processMessages_eq_foldl env refs s,
   by decide, by decide⟩

/-- C3: An attachment blob is fetched only for a part with a non-empty
filename whose lowercase form ends in `.pdf`: every fetch recorded by
`process_single_email` that is not previous history belongs to a part of the
fetched message passing the PDF-name guard. -/
theorem pdf_guard_filters_downloads (env : Env) (s : State) (msgId : String)
    (e : String × String) (h : e ∈ (process_single_email env s msgId).1.fetched) :
    e ∈ s.fetched ∨
      (e.1 = msgId ∧ ∃ part ∈ messageParts env msgId,
        isPdfName part = true ∧ attachmentIdOf part = some e.2) :=
  process_single_email_fetched_mem env s msgId e h

/-- Witness for C3 at a concrete input with one PDF part. -/
theorem pdf_guard_filters_downloads_witness :
    ("m1", "A1") ∈ (process_single_email pdfEnv State.init "m1").1.fetched ∧
    (("m1", "A1") ∈ State.init.fetched ∨
      (("m1", "A1").1 = "m1" ∧ ∃ part ∈ messageParts pdfEnv "m1",
        isPdfName part = true ∧ attachmentIdOf part = some ("m1", "A1").2)) :=
  ⟨by decide, pdf_guard_filters_downloads pdfEnv State.init "m1" ("m1", "A1") (by decide)⟩

set_option maxRecDepth 40000 in
/-- C4: The query built by `process_emails` reads, token for token:
`newer:1d`, AND, the sender group OR-joined inside one parenthesis, AND, the
subject-keyword group (invoice, receipt, bill, payment) OR-joined inside one
parenthesis, AND, `has:attachment`. -/
theorem query_tokens_structure :
    wordsOf query =
      ["newer:1d", "AND",
       "(from:billing@render.com", "OR", "from:support@netlify.com", "OR",
       "from:billing@netlify.com", "OR", "from:payments-noreply@google.com", "OR",
       "from:billing@webflow.com", "OR", "from:billing@box.com", "OR",
       "from:billing@typeform.com", "OR", "from:no-reply@business.amazon.com", "OR",
       "from:*@anthemwelderssupply.com)", "AND",
       "(subject:invoice", "OR", "subject:receipt", "OR", "subject:bill", "OR",
       "subject:payment)", "AND", "has:attachment"] := by decide

/-- C5: A message whose payload is missing or has no `parts` key yields zero
extracted files and logs no error: `process_single_email` leaves the state
completely unchanged and returns normally. -/
theorem no_parts_zero_files_no_error (env : Env) (s : State) (msgId : String) (msg : Message)
    (hg : env.getMessage msgId = Except.ok msg)
    (h : msg.payload = none ∨ ∃ p, msg.payload = some p ∧ p.parts = none) :
    process_single_email env s msgId = (s, none) := by
  unfold process_single_email processSingleEmailBody
  rcases h with h | ⟨p, hp, hpp⟩
  · simp [hg, h]
  · simp [hg, hp, hpp]

/-- Witness for C5 at a concrete message without payload. -/
theorem no_parts_zero_files_no_error_witness :
    stubEnv.getMessage "m1" = Except.ok ⟨none⟩ ∧
    process_single_email stubEnv State.init "m1" = (State.init, none) :=
  ⟨rfl, no_parts_zero_files_no_error stubEnv State.init "m1" ⟨none⟩ rfl (Or.inl rfl)⟩

/-- C6: An error during either authentication or query execution is caught
by `process_emails`, logged, and the run ends early: the state is unchanged
except for one error-log entry, and no exception reaches the caller. -/
theorem auth_or_query_error_ends_run (env : Env) (s : State) (e : String)
    (h : env.gmailService = Except.error e ∨
      (env.gmailService = Except.ok () ∧ env.driveService = Except.error e) ∨
      (env.gmailService = Except.ok () ∧ env.driveService = Except.ok () ∧
        env.listMessages query = Except.error e)) :
    process_emails env s = (s.logError ("Error processing emails: " ++ e), none) := by
  unfold process_emails processEmailsBody
  rcases h with h | ⟨h1, h2⟩ | ⟨h1, h2, h3⟩
  · simp [h]
  · simp [h1, h2]
  · simp [h1, h2, h3]

/-- Witness for C6 at a concrete failing authentication. -/
theorem auth_or_query_error_ends_run_witness :
    authFailEnv.gmailService = Except.error "invalid credentials" ∧
    process_emails authFailEnv State.init =
      (State.init.logError ("Error processing emails: " ++ "invalid credentials"), none) :=
  ⟨rfl, auth_or_query_error_ends_run authFailEnv State.init "invalid credentials" (Or.inl rfl)⟩

/-- C7: The job body run by the scheduler always completes normally: for
every environment (hence every combination of authentication, query, fetch,
decode and upload failures) `main` lets no exception escape to the scheduler
loop. -/
theorem job_body_completes (env : Env) (s : State) : (main env s).2 = none := by
  unfold main
  cases hp : process_emails env ((s.logInfo "Starting invoice processing job").makedirs "invoices") with
  | mk s2 e =>
    have hnr := process_emails_no_raise env
      ((s.logInfo "Starting invoice processing job").makedirs "invoices")
    rw [hp] at hnr
    simp only at hnr
    subst hnr
    simp [hp]

/-- C8: A PDF-named part whose body descriptor carries no attachment id is
silently skipped: `process_attachment` downloads nothing, writes nothing,
logs nothing, and returns the state unchanged. -/
theorem missing_attachment_id_skipped (env : Env) (s : State) (msgId : String) (part : Part)
    (_hpdf : isPdfName part = true)
    (h : part.body = none ∨ ∃ b, part.body = some b ∧ b.attachmentId = none) :
    process_attachment env s msgId part = (s, none) := by
  unfold process_attachment processAttachmentBody
  rcases h with h | ⟨b, hb, ha⟩
  · simp [h]
  · simp [hb, ha]

/-- Witness for C8 at a concrete PDF part with no attachment id. -/
theorem missing_attachment_id_skipped_witness :
    isPdfName noIdPart = true ∧
    process_attachment stubEnv State.init "m1" noIdPart = (State.init, none) :=
  ⟨by decide, missing_attachment_id_skipped stubEnv State.init "m1" noIdPart (by decide)
      (Or.inr ⟨⟨none⟩, rfl, rfl⟩)⟩

/-- C9: The local path used for both the write and the upload is exactly
`"invoices/"` concatenated verbatim with the attachment's original filename
(no sanitization, so a filename like `../x.pdf` escapes the scratch
directory, and equal filenames collide on the same path). -/
theorem scratch_path_verbatim_concat (env : Env) (s : State) (msgId : String) (part : Part)
    (b : PartBody) (attId : String) (att : Attachment) (enc fd fn : String)
    (hb : part.body = some b) (ha : b.attachmentId = some attId)
    (hg : env.getAttachment msgId attId = Except.ok att) (hd : att.data = some enc)
    (hdec : env.b64decode enc = Except.ok fd) (hfn : part.filename = some fn) :
    (process_attachment env s msgId part).1.writes = s.writes ++ [("invoices/" ++ fn, fd)] ∧
    (process_attachment env s msgId part).1.uploadReads =
      s.uploadReads ++ ["invoices/" ++ fn] := by
  unfold process_attachment
  have hw := processAttachmentBody_writes_reads env s msgId part b attId att enc fd fn
    hb ha hg hd hdec hfn
  cases hpb : processAttachmentBody env s msgId part with
  | mk s2 e2 =>
    rw [hpb] at hw
    cases e2 <;> simpa [State.logError] using hw

/-- Witness for C9 at a concrete filename containing a path traversal. -/
theorem scratch_path_verbatim_concat_witness :
    traversalPart.body = some ⟨some "A9"⟩ ∧
    (⟨some "A9"⟩ : PartBody).attachmentId = some "A9" ∧
    stubEnv.getAttachment "m9" "A9" = Except.ok ⟨some "enc-A9"⟩ ∧
    (⟨some "enc-A9"⟩ : Attachment).data = some "enc-A9" ∧
    stubEnv.b64decode "enc-A9" = Except.ok "dec-enc-A9" ∧
    traversalPart.filename = some "../x.pdf" ∧
    ((process_attachment stubEnv State.init "m9" traversalPart).1.writes =
        State.init.writes ++ [("invoices/" ++ "../x.pdf", "dec-enc-A9")] ∧
      (process_attachment stubEnv State.init "m9" traversalPart).1.uploadReads =
        State.init.uploadReads ++ ["invoices/" ++ "../x.pdf"]) :=
  ⟨rfl, rfl, rfl, rfl, rfl, rfl,
   scratch_path_verbatim_concat stubEnv State.init "m9" traversalPart
     ⟨some "A9"⟩ "A9" ⟨some "enc-A9"⟩ "enc-A9" "dec-enc-A9" "../x.pdf"
     rfl rfl rfl rfl rfl rfl⟩

/-- C10: `upload_to_drive` never propagates an exception to its caller: its
whole body is wrapped in `try/except`, so it returns normally on every
input and a failed upload is indistinguishable from a successful one by the
call's outcome. -/
theorem upload_never_raises (env : Env) (s : State) (fn : String) :
    (upload_to_drive env s fn).2 = none :=
  (upload_to_drive_effects env s fn).1

end InvoiceRetriever
